import Mathlib

/-!
Verification of the WSIMOD flow-transport substrate (wsimod/core/core.py and
wsimod/arcs/arcs.py) against its natural-language specification.

Shallow embedding conventions:
* Python float arithmetic is modelled with exact rationals (`ℚ`).
* A VQIP dict (keys = `constants.POLLUTANTS + ['volume']`) is modelled as a
  structure: a `volume`, a map over the additive pollutants `AP`, and a map
  over the non-additive pollutants `NP`.  The repository's constants module is
  not part of the provided sources; following the spec's data model,
  `POLLUTANTS` is the disjoint union of the additive and the non-additive
  pollutant sets (the spec names temperature as a non-additive field), so a
  loop over `constants.POLLUTANTS` touches both field families while a loop
  over `constants.ADDITIVE_POLLUTANTS` touches only the additive ones.
* A Python expression that raises `ZeroDivisionError` is modelled by returning
  `none`; total code returns plain values.
* Endpoint calls (`out_port.push_set`, `in_port.pull_check`, ...) are modelled
  as function parameters; the tag dispatch performed inside the endpoint is
  folded into the supplied function where the arc passes a fixed tag.
-/

namespace WSIMod

/-- A VQIP record: `volume` plus additive pollutant fields (`AP`) and
non-additive pollutant fields (`NP`).  Mirrors the dict with keys
`constants.POLLUTANTS + ['volume']` built by `WSIObj.empty_vqip`. -/
structure VQIP (AP NP : Type) where
  volume : ℚ
  additive : AP → ℚ
  nonadd : NP → ℚ

instance {AP NP : Type} [Fintype AP] [DecidableEq AP] [Fintype NP] [DecidableEq NP] :
    DecidableEq (VQIP AP NP) := fun a b =>
  decidable_of_iff (a.volume = b.volume ∧ a.additive = b.additive ∧ a.nonadd = b.nonadd)
    (by cases a; cases b; simp)

variable {AP NP : Type}

/-- `WSIObj.empty_vqip`: the all-zero record. -/
def empty_vqip : VQIP AP NP :=
  { volume := 0, additive := fun _ => 0, nonadd := fun _ => 0 }

/-- `WSIObj.sum_vqip`: add the volumes, then add every pollutant field
(the source loops over `constants.POLLUTANTS`, i.e. both field families). -/
def sum_vqip (t1 t2 : VQIP AP NP) : VQIP AP NP :=
  { volume := t1.volume + t2.volume
    additive := fun p => t1.additive p + t2.additive p
    nonadd := fun p => t1.nonadd p + t2.nonadd p }

/-- `WSIObj.blend_vqip`: volumes add; if the combined volume is positive every
pollutant field (both families, loop over `constants.POLLUTANTS`) becomes the
volume-weighted average, otherwise the fields stay at the zero default. -/
def blend_vqip (c1 c2 : VQIP AP NP) : VQIP AP NP :=
  let vol := c1.volume + c2.volume
  if 0 < vol then
    { volume := vol
      additive := fun p => (c1.additive p * c1.volume + c2.additive p * c2.volume) / vol
      nonadd := fun p => (c1.nonadd p * c1.volume + c2.nonadd p * c2.volume) / vol }
  else
    { volume := vol, additive := fun _ => 0, nonadd := fun _ => 0 }

/-- `WSIObj.concentration_to_total`: multiply each additive field by the
volume; volume and non-additive fields are untouched. -/
def concentration_to_total (c : VQIP AP NP) : VQIP AP NP :=
  { c with additive := fun p => c.additive p * c.volume }

instance {A : Type} [Fintype A] : Decidable (Nonempty A) :=
  decidable_of_iff (∃ _a : A, True) exists_true_iff_nonempty

/-- `WSIObj.total_to_concentration`: divide each additive field by the volume.
The division is unguarded in the source, so when the volume is zero and there
is at least one additive pollutant the call raises `ZeroDivisionError`,
modelled as `none`. -/
def total_to_concentration [Fintype AP] (t : VQIP AP NP) : Option (VQIP AP NP) :=
  if t.volume = 0 ∧ Nonempty AP then none
  else some { t with additive := fun p => t.additive p / t.volume }

/-- `WSIObj.extract_vqip`: subtract volume and the additive fields
(loop over `constants.ADDITIVE_POLLUTANTS + ['volume']`); non-additive fields
come from the first argument unchanged. -/
def extract_vqip (t1 t2 : VQIP AP NP) : VQIP AP NP :=
  { volume := t1.volume - t2.volume
    additive := fun p => t1.additive p - t2.additive p
    nonadd := t1.nonadd }

/-- `WSIObj.v_change_vqip`: if the record has positive volume, rescale volume
and additive fields by `v / volume`; otherwise assign the volume directly. -/
def v_change_vqip (t : VQIP AP NP) (v : ℚ) : VQIP AP NP :=
  if 0 < t.volume then
    { t with volume := t.volume * (v / t.volume)
             additive := fun p => t.additive p * (v / t.volume) }
  else
    { t with volume := v }

/-- Modelled from the spec: the decay reference temperature from the missing
`wsimod.core.constants` module (its numeric value is irrelevant to every
claim below). -/
def DECAY_REFERENCE_TEMPERATURE : ℤ := 20

/-- Modelled from the spec: the small numerical-noise threshold
`constants.FLOAT_ACCURACY` from the missing constants module ("volumes below
a fixed tolerance are treated as exactly zero"). -/
def FLOAT_ACCURACY : ℚ := 1 / 100000000000

/-- Decay parameters of one governed field (`{'constant': .., 'exponent': ..}`). -/
structure DecayPars where
  constant : ℚ
  exponent : ℚ

/-- The factor `min(constant * exponent ** (temperature - reference), 1)`
from `WSIObj.generic_temperature_decay`; temperatures are modelled as
integers so the power is an exact `zpow`. -/
def decay_factor (pars : DecayPars) (temperature : ℤ) : ℚ :=
  min (pars.constant * pars.exponent ^ (temperature - DECAY_REFERENCE_TEMPERATURE)) 1

/-- Read a pollutant field (either family) of a record. -/
def polVal (t : VQIP AP NP) : AP ⊕ NP → ℚ
  | Sum.inl p => t.additive p
  | Sum.inr p => t.nonadd p

/-- `WSIObj.generic_temperature_decay`: for each governed field (a key of the
mapping `d`) remove `field * decay_factor` from the record and record the
removed amount in a `diff` record that starts empty.  Returns
`(decayed record, removed amounts)`. -/
def generic_temperature_decay (t : VQIP AP NP) (d : AP ⊕ NP → Option DecayPars)
    (temperature : ℤ) : VQIP AP NP × VQIP AP NP :=
  ({ volume := t.volume
     additive := fun p =>
       match d (Sum.inl p) with
       | none => t.additive p
       | some pars => t.additive p - t.additive p * decay_factor pars temperature
     nonadd := fun p =>
       match d (Sum.inr p) with
       | none => t.nonadd p
       | some pars => t.nonadd p - t.nonadd p * decay_factor pars temperature },
   { volume := 0
     additive := fun p =>
       match d (Sum.inl p) with
       | none => 0
       | some pars => t.additive p * decay_factor pars temperature
     nonadd := fun p =>
       match d (Sum.inr p) with
       | none => 0
       | some pars => t.nonadd p * decay_factor pars temperature })

/-- The per-timestep running totals of a base `Arc` (arcs.py `Arc.__init__`):
`flow_in`, `flow_out`, `vqip_in`, `vqip_out`. -/
structure ArcState (AP NP : Type) where
  flow_in : ℚ
  flow_out : ℚ
  vqip_in : VQIP AP NP
  vqip_out : VQIP AP NP

/-- The state after `Arc.__init__` / `Arc.end_timestep`: everything zero. -/
def arc_reset : ArcState AP NP :=
  { flow_in := 0, flow_out := 0, vqip_in := empty_vqip, vqip_out := empty_vqip }

/-- `Arc.get_excess`: the pipe excess is `capacity - flow_in`; the endpoint
excess `node_excess` is the reply of the endpoint's check call; the result is
`node_excess` volume-changed to the minimum of the two. -/
def get_excess (capacity flow_in : ℚ) (node_excess : VQIP AP NP) : VQIP AP NP :=
  v_change_vqip node_excess (min (capacity - flow_in) node_excess.volume)

/-- `Arc.send_push_request`: clip the pushed record to the arc's checked
excess (unless `force`), forward the clipped record to the destination's
`push_set`, credit the accepted amount to the running totals (out totals are
assigned from the in totals), and return the destination reply summed with
the arc-rejected portion.  `push_check` and `push_set` stand for
`self.out_port.push_check(-, tag)` and `self.out_port.push_set(-, tag)`. -/
def send_push_request (capacity : ℚ) (push_check push_set : VQIP AP NP → VQIP AP NP)
    (s : ArcState AP NP) (vqip0 : VQIP AP NP) (force : Bool) :
    ArcState AP NP × VQIP AP NP :=
  let not_pushed : VQIP AP NP :=
    if force then empty_vqip
    else
      let excess_in := get_excess capacity s.flow_in (push_check vqip0)
      v_change_vqip vqip0 (max (vqip0.volume - excess_in.volume) 0)
  let vqip1 := extract_vqip vqip0 not_pushed
  let reply := push_set vqip1
  let vqip2 := extract_vqip vqip1 reply
  let reply2 := sum_vqip reply not_pushed
  ({ flow_in := s.flow_in + vqip2.volume
     flow_out := s.flow_in + vqip2.volume
     vqip_in := sum_vqip s.vqip_in vqip2
     vqip_out := sum_vqip s.vqip_in vqip2 }, reply2)

/-- `Arc.send_pull_request`: compute the pullable volume from `get_excess`,
scale the additive fields of the request by `volume / vqip['volume']` (the
division is unguarded in the source, so a zero-volume request raises
`ZeroDivisionError` when there is at least one additive pollutant, modelled
as `none`), set the reduced volume, issue the committed pull, and credit the
obtained record to the running totals. -/
def send_pull_request [Fintype AP] (capacity : ℚ)
    (pull_check pull_set : VQIP AP NP → VQIP AP NP)
    (s : ArcState AP NP) (vqip0 : VQIP AP NP) :
    Option (ArcState AP NP × VQIP AP NP) :=
  let excess_in := (get_excess capacity s.flow_in (pull_check vqip0)).volume
  let not_pulled := max (vqip0.volume - excess_in) 0
  let volume := vqip0.volume - not_pulled
  if vqip0.volume = 0 ∧ Nonempty AP then none
  else
    let vqip1 : VQIP AP NP :=
      { vqip0 with volume := volume
                   additive := fun p => vqip0.additive p * (volume / vqip0.volume) }
    let vqip2 := pull_set vqip1
    some ({ flow_in := s.flow_in + vqip2.volume
            flow_out := s.flow_in + vqip2.volume
            vqip_in := sum_vqip s.vqip_in vqip2
            vqip_out := sum_vqip s.vqip_in vqip2 }, vqip2)

/-- One committed operation on a base Arc within a timestep; each operation
carries the endpoint behaviour (check and committed handler) it runs against,
so a sequence of operations may face an evolving environment. -/
inductive ArcOp (AP NP : Type) where
  | push (check set : VQIP AP NP → VQIP AP NP) (vqip : VQIP AP NP) (force : Bool)
  | pull (check set : VQIP AP NP → VQIP AP NP) (vqip : VQIP AP NP)

/-- The arc state after one committed operation; a pull that raises
`ZeroDivisionError` leaves the arc state untouched (the exception propagates
before any state update in the source). -/
def arc_step [Fintype AP] (capacity : ℚ) (s : ArcState AP NP) : ArcOp AP NP → ArcState AP NP
  | ArcOp.push check set vqip force => (send_push_request capacity check set s vqip force).1
  | ArcOp.pull check set vqip =>
      match send_pull_request capacity check set s vqip with
      | none => s
      | some res => res.1

/-- The arc state after a sequence of committed operations. -/
def arc_run [Fintype AP] (capacity : ℚ) (s : ArcState AP NP) (ops : List (ArcOp AP NP)) :
    ArcState AP NP :=
  ops.foldl (arc_step capacity) s

/-- Direction tag of a queued request. -/
inductive Dir where
  | push
  | pull
deriving DecidableEq

/-- A `QueueArc` queue entry (`request` dict): remaining time, payload,
derived average flow, direction and routing tag. -/
structure QRequest (AP NP T : Type) where
  time : ℕ
  vqip : VQIP AP NP
  average_flow : ℚ
  direction : Dir
  tag : T

/-- The state of a `QueueArc`: the request list plus the running totals and
the queue-storage snapshots. -/
structure QueueState (AP NP T : Type) where
  queue : List (QRequest AP NP T)
  flow_in : ℚ
  flow_out : ℚ
  vqip_in : VQIP AP NP
  vqip_out : VQIP AP NP
  queue_storage : VQIP AP NP
  queue_storage_ : VQIP AP NP

/-- Accumulator of one `QueueArc.update_queue` pass: the surviving queue (in
order), `total_removed`, `total_backflow` and the running `flow_out`. -/
structure UQAcc (AP NP T : Type) where
  kept : List (QRequest AP NP T)
  total_removed : VQIP AP NP
  total_backflow : VQIP AP NP
  flow_out : ℚ

/-- One iteration of the `QueueArc.update_queue` loop over the queue.
`push_set` stands for `self.out_port.push_set`.  A request of the other
direction, or one not yet due, survives unchanged; a negligible request is
dropped; a due push is delivered, its accepted part credited, and its
rejected part either summed into the backflow and dropped
(`backflow_enabled` or negligible rejection) or kept in the queue. -/
def update_queue_step (push_set : VQIP AP NP → T → VQIP AP NP) (direction : Dir)
    (backflow_enabled : Bool) (acc : UQAcc AP NP T) (request : QRequest AP NP T) :
    UQAcc AP NP T :=
  if request.direction = direction then
    if request.vqip.volume < FLOAT_ACCURACY then
      { acc with kept := acc.kept }
    else if request.time = 0 then
      let removed : ℚ :=
        match direction with
        | Dir.push => request.vqip.volume - (push_set request.vqip request.tag).volume
        | Dir.pull => request.vqip.volume
      let flow_out := acc.flow_out + request.average_flow * removed / request.vqip.volume
      let vqip_ := v_change_vqip request.vqip removed
      let total_removed := sum_vqip acc.total_removed vqip_
      let rejected := v_change_vqip request.vqip (request.vqip.volume - removed)
      if backflow_enabled || decide (rejected.volume < FLOAT_ACCURACY) then
        { kept := acc.kept, total_removed := total_removed
          total_backflow := sum_vqip rejected acc.total_backflow, flow_out := flow_out }
      else
        { kept := acc.kept ++ [{ request with vqip := rejected }]
          total_removed := total_removed
          total_backflow := acc.total_backflow, flow_out := flow_out }
    else
      { acc with kept := acc.kept ++ [request] }
  else
    { acc with kept := acc.kept ++ [request] }

/-- `QueueArc.update_queue`: one pass over the queue; done requests are
removed, `vqip_out` and `flow_out` are credited, and the call returns
`total_removed` for pulls and `total_backflow` for pushes. -/
def update_queue (push_set : VQIP AP NP → T → VQIP AP NP) (direction : Dir)
    (backflow_enabled : Bool) (s : QueueState AP NP T) :
    QueueState AP NP T × VQIP AP NP :=
  let acc := s.queue.foldl (update_queue_step push_set direction backflow_enabled)
    { kept := [], total_removed := empty_vqip, total_backflow := empty_vqip
      flow_out := s.flow_out }
  ({ s with queue := acc.kept
            vqip_out := sum_vqip s.vqip_out acc.total_removed
            flow_out := acc.flow_out },
   match direction with
   | Dir.pull => acc.total_removed
   | Dir.push => acc.total_backflow)

/-- `QueueArc.end_timestep`: reset the running totals, snapshot the queue
storage, and decrement every request's remaining time by one, floored at
zero (`max(request['time'] - 1, 0)` is truncated subtraction on `ℕ`). -/
def queue_end_timestep (s : QueueState AP NP T) : QueueState AP NP T :=
  { queue := s.queue.map (fun r => { r with time := r.time - 1 })
    flow_in := 0
    flow_out := 0
    vqip_in := empty_vqip
    vqip_out := empty_vqip
    queue_storage := empty_vqip
    queue_storage_ := s.queue_storage }

/-- The bucket dictionary of an `AltQueueArc`: the set of keys present in the
Python dict together with the stored records (the value at an absent key is
never read by reachable code). -/
structure AltDict (AP NP : Type) where
  keys : Finset ℕ
  val : ℕ → VQIP AP NP

/-- The state of an `AltQueueArc`. -/
structure AltState (AP NP : Type) where
  queue : AltDict AP NP
  max_travel : ℕ
  flow_in : ℚ
  flow_out : ℚ
  vqip_in : VQIP AP NP
  vqip_out : VQIP AP NP
  queue_storage : VQIP AP NP
  queue_storage_ : VQIP AP NP

/-- `AltQueueArc.update_queue`: deliver bucket `0` to the destination's
committed push; when backflow is disabled the rejected reply becomes the new
bucket `0` and the returned backflow is empty, otherwise bucket `0` is
cleared and the reply is returned; finally `total_removed` is volume-changed
by the (possibly already cleared) backflow and credited to the running
out-totals. -/
def alt_update_queue (push_set : VQIP AP NP → VQIP AP NP) (backflow_enabled : Bool)
    (s : AltState AP NP) : AltState AP NP × VQIP AP NP :=
  let total_removed := s.queue.val 0
  let backflow := push_set total_removed
  let q0new := if backflow_enabled then empty_vqip else backflow
  let backflow2 := if backflow_enabled then backflow else empty_vqip
  let total_removed2 := v_change_vqip total_removed (total_removed.volume - backflow2.volume)
  ({ s with queue := { keys := insert 0 s.queue.keys
                       val := fun j => if j = 0 then q0new else s.queue.val j }
            flow_out := s.flow_out + total_removed2.volume
            vqip_out := sum_vqip s.vqip_out total_removed2 }, backflow2)

/-- One iteration of the `AltQueueArc.end_timestep` shift loop: if key `i+1`
is present in the live dict, bucket `i` is overwritten with the pre-loop
value of bucket `i+1` (read from the shallow copy `q_`) and bucket `i+1` is
set to the empty record. -/
def alt_shift_step (q_ : AltDict AP NP) (q : AltDict AP NP) (i : ℕ) : AltDict AP NP :=
  if (i + 1) ∈ q.keys then
    { keys := insert (i + 1) (insert i q.keys)
      val := fun j => if j = i + 1 then empty_vqip else if j = i then q_.val (i + 1) else q.val j }
  else q

/-- `AltQueueArc.end_timestep`: reset the running totals, run the shift loop
for `i in range(max_travel)` against the shallow copy of the queue, then
overwrite bucket `0` with the sum of the old buckets `0` and `1`. -/
def alt_end_timestep (s : AltState AP NP) : AltState AP NP :=
  let q_ := s.queue
  let q1 := (List.range s.max_travel).foldl (alt_shift_step q_) s.queue
  { queue := { keys := insert 0 q1.keys
               val := fun j => if j = 0 then sum_vqip (q_.val 0) (q_.val 1) else q1.val j }
    max_travel := s.max_travel
    flow_in := 0
    flow_out := 0
    vqip_in := empty_vqip
    vqip_out := empty_vqip
    queue_storage := empty_vqip
    queue_storage_ := s.queue_storage }

/-- `AltQueueArc.alt_queue_arc_sum`: the sum of all stored buckets.  The
source folds `sum_vqip` (componentwise addition with zero unit) over the dict
values, which equals the componentwise sum over the key set. -/
def alt_queue_arc_sum (q : AltDict AP NP) : VQIP AP NP :=
  { volume := ∑ j ∈ q.keys, (q.val j).volume
    additive := fun p => ∑ j ∈ q.keys, (q.val j).additive p
    nonadd := fun p => ∑ j ∈ q.keys, (q.val j).nonadd p }

attribute [ext] VQIP ArcState QueueState AltDict AltState

/-- Summing the empty record changes nothing (every field gains zero). -/
theorem sum_vqip_empty_right (t : VQIP AP NP) : sum_vqip t empty_vqip = t := by
  ext <;> simp [sum_vqip, empty_vqip]

/-- Summing onto the empty record changes nothing. -/
theorem sum_vqip_empty_left (t : VQIP AP NP) : sum_vqip empty_vqip t = t := by
  ext <;> simp [sum_vqip, empty_vqip]

/-- The volume of `v_change_vqip t v` is exactly `v` (in both branches). -/
theorem v_change_vqip_volume (t : VQIP AP NP) (v : ℚ) : (v_change_vqip t v).volume = v := by
  unfold v_change_vqip
  split
  · next h => simp [mul_div_cancel₀ _ (ne_of_gt h)]
  · rfl

/-- Changing a record to its own volume is the identity. -/
theorem v_change_vqip_self (t : VQIP AP NP) : v_change_vqip t t.volume = t := by
  unfold v_change_vqip
  split
  · next h =>
    ext
    · simp [mul_div_cancel₀ _ (ne_of_gt h)]
    · simp [div_self (ne_of_gt h)]
    · rfl
  · rfl

/-- The volume returned by `get_excess` is `min (capacity - flow_in)`
(endpoint excess volume). -/
theorem get_excess_volume (capacity flow_in : ℚ) (ne_ : VQIP AP NP) :
    (get_excess capacity flow_in ne_).volume = min (capacity - flow_in) ne_.volume :=
  v_change_vqip_volume ..

/-- C7 (counterexample): `sum_vqip` does not leave non-additive fields
untouched — the source loops over all of `constants.POLLUTANTS`, so a
non-additive field (the spec's example is temperature) is summed as well:
with `a.nonadd = 2` and `b.nonadd = 1` the sum's non-additive field is `3`,
not `a`'s value `2`. -/
theorem sum_vqip_nonadd_changed :
    (sum_vqip (⟨1, fun _ => 0, fun _ => 2⟩ : VQIP (Fin 1) (Fin 1))
        ⟨1, fun _ => 0, fun _ => 1⟩).nonadd 0 ≠
      (⟨1, fun _ => 0, fun _ => 2⟩ : VQIP (Fin 1) (Fin 1)).nonadd 0 := by
  simp [sum_vqip]

/-- C7 (amended): `sum_vqip a b` returns the field-wise sum of `a` and `b`
on the volume and on every pollutant field, the non-additive fields
included (the source sums over all of `constants.POLLUTANTS`, so
non-additive fields are added rather than left at `a`'s values). -/
theorem sum_vqip_fieldwise (a b : VQIP AP NP) :
    (sum_vqip a b).volume = a.volume + b.volume ∧
    (∀ p, (sum_vqip a b).additive p = a.additive p + b.additive p) ∧
    (∀ p, (sum_vqip a b).nonadd p = a.nonadd p + b.nonadd p) :=
  ⟨rfl, fun _ => rfl, fun _ => rfl⟩

/-- C8: for a record of positive volume, `total_to_concentration`
applied to `concentration_to_total` returns the original record (volume,
additive and non-additive fields), and both conversions leave the
non-additive fields and the volume untouched. -/
theorem conversion_round_trip [Fintype AP] (x : VQIP AP NP) (hx : 0 < x.volume) :
    total_to_concentration (concentration_to_total x) = some x ∧
    (concentration_to_total x).nonadd = x.nonadd ∧
    (concentration_to_total x).volume = x.volume := by
  refine ⟨?_, rfl, rfl⟩
  have hv : x.volume ≠ 0 := ne_of_gt hx
  unfold total_to_concentration concentration_to_total
  rw [if_neg]
  · congr 1
    ext
    · rfl
    · simp [mul_div_cancel_right₀ _ hv]
    · rfl
  · simp [hv]

/-- C8 witness: the round trip evaluated at the record with volume `2`,
additive field `3` and non-additive field `7`. -/
theorem conversion_round_trip_witness :
    total_to_concentration (concentration_to_total
        (⟨2, fun _ => 3, fun _ => 7⟩ : VQIP (Fin 1) (Fin 1))) =
      some ⟨2, fun _ => 3, fun _ => 7⟩ :=
  (conversion_round_trip ⟨2, fun _ => 3, fun _ => 7⟩ (by norm_num)).1

/-- C10: `total_to_concentration` is undefined at zero volume — with at
least one additive pollutant the unguarded division raises
(`none` in this model) — while `blend_vqip` guards its division: whenever
the combined volume is not positive it returns the record with combined
volume and all pollutant fields left at zero. -/
theorem total_to_concentration_zero_volume [Fintype AP] :
    (∀ t : VQIP AP NP, t.volume = 0 → Nonempty AP → total_to_concentration t = none) ∧
    (∀ c1 c2 : VQIP AP NP, c1.volume + c2.volume ≤ 0 →
      (∀ p, (blend_vqip c1 c2).additive p = 0) ∧ (∀ p, (blend_vqip c1 c2).nonadd p = 0)) := by
  constructor
  · intro t h0 hne
    unfold total_to_concentration
    rw [if_pos ⟨h0, hne⟩]
  · intro c1 c2 hvol
    unfold blend_vqip
    rw [if_neg (by exact not_lt.mpr hvol)]
    exact ⟨fun _ => rfl, fun _ => rfl⟩

/-- C10 witness: at the record of volume `0` with additive field `5` the
conversion fails, and blending two records of combined volume `0` leaves
the pollutant fields at zero. -/
theorem total_to_concentration_zero_volume_witness :
    total_to_concentration (⟨0, fun _ => 5, fun _ => 9⟩ : VQIP (Fin 1) (Fin 1)) = none ∧
    (blend_vqip (⟨0, fun _ => 5, fun _ => 9⟩ : VQIP (Fin 1) (Fin 1))
        ⟨0, fun _ => 4, fun _ => 8⟩).additive 0 = 0 :=
  ⟨(total_to_concentration_zero_volume).1 ⟨0, fun _ => 5, fun _ => 9⟩ rfl ⟨0⟩,
   ((total_to_concentration_zero_volume).2 ⟨0, fun _ => 5, fun _ => 9⟩
      ⟨0, fun _ => 4, fun _ => 8⟩ (by norm_num)).1 0⟩

/-- C9: for a governed field with a non-negative value, positive decay
constant and positive exponent, and any (integer) temperature,
`generic_temperature_decay` removes exactly
`field * min(constant * exponent ^ (temperature - reference), 1)`;
the removed amount lies between `0` and the original field value, the
remaining field value is non-negative, and remaining plus removed equals
the original field value. -/
theorem generic_temperature_decay_bounds (t : VQIP AP NP)
    (d : AP ⊕ NP → Option DecayPars) (temperature : ℤ) (p : AP ⊕ NP)
    (pars : DecayPars) (hp : d p = some pars) (ht : 0 ≤ polVal t p)
    (hc : 0 < pars.constant) (he : 0 < pars.exponent) :
    polVal (generic_temperature_decay t d temperature).2 p
        = polVal t p * decay_factor pars temperature ∧
    0 ≤ polVal (generic_temperature_decay t d temperature).2 p ∧
    polVal (generic_temperature_decay t d temperature).2 p ≤ polVal t p ∧
    0 ≤ polVal (generic_temperature_decay t d temperature).1 p ∧
    polVal (generic_temperature_decay t d temperature).1 p
        + polVal (generic_temperature_decay t d temperature).2 p = polVal t p := by
  have hf0 : 0 < decay_factor pars temperature :=
    lt_min (mul_pos hc (zpow_pos he _)) one_pos
  have hf1 : decay_factor pars temperature ≤ 1 := min_le_right _ _
  have hremle : polVal t p * decay_factor pars temperature ≤ polVal t p :=
    mul_le_of_le_one_right ht hf1
  have hrem0 : 0 ≤ polVal t p * decay_factor pars temperature :=
    mul_nonneg ht (le_of_lt hf0)
  have key : polVal (generic_temperature_decay t d temperature).2 p
      = polVal t p * decay_factor pars temperature ∧
      polVal (generic_temperature_decay t d temperature).1 p
      = polVal t p - polVal t p * decay_factor pars temperature := by
    cases p with
    | inl a =>
      exact ⟨by simp [polVal, generic_temperature_decay, hp],
             by simp [polVal, generic_temperature_decay, hp]⟩
    | inr a =>
      exact ⟨by simp [polVal, generic_temperature_decay, hp],
             by simp [polVal, generic_temperature_decay, hp]⟩
  rw [key.1, key.2]
  exact ⟨rfl, hrem0, hremle, by linarith, by ring⟩

/-- C9 witness: the decay law evaluated at the field value `4`, decay
constant `1`, exponent `2` and temperature one degree above the reference,
where the factor is `min (2, 1) = 1` and the whole field decays. -/
theorem generic_temperature_decay_bounds_witness :
    polVal (generic_temperature_decay (⟨0, fun _ => 4, fun _ => 0⟩ : VQIP (Fin 1) (Fin 1))
        (fun _ => some ⟨1, 2⟩) 21).2 (Sum.inl 0)
      = polVal (⟨0, fun _ => 4, fun _ => 0⟩ : VQIP (Fin 1) (Fin 1)) (Sum.inl 0)
        * decay_factor ⟨1, 2⟩ 21 ∧
    0 ≤ polVal (generic_temperature_decay (⟨0, fun _ => 4, fun _ => 0⟩ : VQIP (Fin 1) (Fin 1))
        (fun _ => some ⟨1, 2⟩) 21).1 (Sum.inl 0) := by
  have h := generic_temperature_decay_bounds
    (⟨0, fun _ => 4, fun _ => 0⟩ : VQIP (Fin 1) (Fin 1))
    (fun _ => some ⟨1, 2⟩) 21 (Sum.inl 0) ⟨1, 2⟩ rfl (by norm_num [polVal])
    (by norm_num) (by norm_num)
  exact ⟨h.1, h.2.2.2.1⟩

/-- Unfolding of `send_push_request` with `force = false`. -/
theorem send_push_request_false_eq (capacity : ℚ) (pc ps : VQIP AP NP → VQIP AP NP)
    (s : ArcState AP NP) (v : VQIP AP NP) :
    send_push_request capacity pc ps s v false =
      ({ flow_in := s.flow_in + (extract_vqip
            (extract_vqip v (v_change_vqip v
              (max (v.volume - (get_excess capacity s.flow_in (pc v)).volume) 0)))
            (ps (extract_vqip v (v_change_vqip v
              (max (v.volume - (get_excess capacity s.flow_in (pc v)).volume) 0))))).volume
         flow_out := s.flow_in + (extract_vqip
            (extract_vqip v (v_change_vqip v
              (max (v.volume - (get_excess capacity s.flow_in (pc v)).volume) 0)))
            (ps (extract_vqip v (v_change_vqip v
              (max (v.volume - (get_excess capacity s.flow_in (pc v)).volume) 0))))).volume
         vqip_in := sum_vqip s.vqip_in (extract_vqip
            (extract_vqip v (v_change_vqip v
              (max (v.volume - (get_excess capacity s.flow_in (pc v)).volume) 0)))
            (ps (extract_vqip v (v_change_vqip v
              (max (v.volume - (get_excess capacity s.flow_in (pc v)).volume) 0)))))
         vqip_out := sum_vqip s.vqip_in (extract_vqip
            (extract_vqip v (v_change_vqip v
              (max (v.volume - (get_excess capacity s.flow_in (pc v)).volume) 0)))
            (ps (extract_vqip v (v_change_vqip v
              (max (v.volume - (get_excess capacity s.flow_in (pc v)).volume) 0))))) },
       sum_vqip
         (ps (extract_vqip v (v_change_vqip v
           (max (v.volume - (get_excess capacity s.flow_in (pc v)).volume) 0))))
         (v_change_vqip v
           (max (v.volume - (get_excess capacity s.flow_in (pc v)).volume) 0))) :=
  rfl

/-- Arithmetic identity behind the clipping: `a - max (a - b) 0 = min a b`. -/
theorem sub_max_sub_zero (a b : ℚ) : a - max (a - b) 0 = min a b := by
  rcases le_total a b with h | h
  · rw [max_eq_right (by linarith), min_eq_left h]
    ring
  · rw [max_eq_left (by linarith), min_eq_right h]
    ring

/-- C1: with `force = false`, `send_push_request` clips the pushed record to
the checked-available amount `min (capacity - flow committed) (destination
checked volume)` computed through `get_excess`, forwards the clipped record
to the destination's committed push, and returns the destination reply
summed with the arc-rejected portion; in particular, for capacity `10`, no
prior committed flow, and a destination whose checked and committed capacity
is `6`, pushing volume `8` returns a not-accepted record of volume `2`. -/
theorem send_push_request_contract :
    (∀ (AP NP : Type) (capacity : ℚ) (pc ps : VQIP AP NP → VQIP AP NP)
      (s : ArcState AP NP) (v : VQIP AP NP),
      (extract_vqip v (v_change_vqip v
          (max (v.volume - (get_excess capacity s.flow_in (pc v)).volume) 0))).volume
        = min v.volume (min (capacity - s.flow_in) (pc v).volume) ∧
      (send_push_request capacity pc ps s v false).2
        = sum_vqip
            (ps (extract_vqip v (v_change_vqip v
              (max (v.volume - (get_excess capacity s.flow_in (pc v)).volume) 0))))
            (v_change_vqip v
              (max (v.volume - (get_excess capacity s.flow_in (pc v)).volume) 0))) ∧
    (send_push_request 10 (fun _ => ⟨6, fun _ => 0, fun _ => 0⟩)
        (fun r => v_change_vqip r (max (r.volume - 6) 0))
        (arc_reset : ArcState (Fin 1) (Fin 1))
        ⟨8, fun _ => 0, fun _ => 0⟩ false).2.volume = 2 := by
  constructor
  · intro AP NP capacity pc ps s v
    constructor
    · show v.volume - (v_change_vqip v
          (max (v.volume - (get_excess capacity s.flow_in (pc v)).volume) 0)).volume = _
      rw [v_change_vqip_volume, get_excess_volume, sub_max_sub_zero]
    · rw [send_push_request_false_eq]
  · norm_num [send_push_request_false_eq, get_excess, v_change_vqip, extract_vqip,
      sum_vqip, empty_vqip, arc_reset]

/-- Any state a successful pull returns satisfies the conservation
invariant (the source assigns the out totals from the in totals). -/
theorem send_pull_result_inv [Fintype AP] (capacity : ℚ)
    (pc ps : VQIP AP NP → VQIP AP NP) (s : ArcState AP NP) (v : VQIP AP NP)
    (res : ArcState AP NP × VQIP AP NP)
    (h : send_pull_request capacity pc ps s v = some res) :
    res.1.flow_in = res.1.flow_out ∧ res.1.vqip_in = res.1.vqip_out := by
  simp only [send_pull_request] at h
  split at h
  · exact absurd h (by simp)
  · have hr := Option.some.inj h
    subst hr
    exact ⟨rfl, rfl⟩

/-- The conservation invariant of a base arc is preserved by every committed
operation (push and pull both assign the out totals from the in totals; a
pull that raises leaves the state unchanged). -/
theorem arc_step_preserves [Fintype AP] (capacity : ℚ) (s : ArcState AP NP)
    (op : ArcOp AP NP) (h : s.flow_in = s.flow_out ∧ s.vqip_in = s.vqip_out) :
    (arc_step capacity s op).flow_in = (arc_step capacity s op).flow_out ∧
    (arc_step capacity s op).vqip_in = (arc_step capacity s op).vqip_out := by
  cases op with
  | push check set vqip force => exact ⟨rfl, rfl⟩
  | pull check set vqip =>
    have hstep : arc_step capacity s (ArcOp.pull check set vqip)
        = match send_pull_request capacity check set s vqip with
          | none => s
          | some res => res.1 := rfl
    rw [hstep]
    cases hres : send_pull_request capacity check set s vqip with
    | none => exact h
    | some res => exact send_pull_result_inv capacity check set s vqip res hres

/-- C2: starting from the state left by `end_timestep`, after every sequence
of committed push and pull operations on a base arc, `flow_in = flow_out`
and `vqip_in = vqip_out` hold field for field. -/
theorem arc_conservation [Fintype AP] (capacity : ℚ) (ops : List (ArcOp AP NP)) :
    (arc_run capacity arc_reset ops).flow_in = (arc_run capacity arc_reset ops).flow_out ∧
    (arc_run capacity arc_reset ops).vqip_in = (arc_run capacity arc_reset ops).vqip_out := by
  suffices h : ∀ (s : ArcState AP NP),
      s.flow_in = s.flow_out ∧ s.vqip_in = s.vqip_out →
      (arc_run capacity s ops).flow_in = (arc_run capacity s ops).flow_out ∧
      (arc_run capacity s ops).vqip_in = (arc_run capacity s ops).vqip_out by
    exact h arc_reset ⟨rfl, rfl⟩
  induction ops with
  | nil => intro s hs; exact hs
  | cons op rest ih =>
    intro s hs
    exact ih (arc_step capacity s op) (arc_step_preserves capacity s op hs)

/-- C6 (counterexample): pulling an empty (zero-volume) record through a
base arc is not total — `send_pull_request` scales the additive fields by
`volume / vqip['volume']` without guarding the division, so with the input
volume equal to zero the call raises `ZeroDivisionError` (modelled `none`)
instead of returning a record. -/
theorem send_pull_request_empty_not_total :
    send_pull_request 1 (fun r => r) (fun r => r)
      (arc_reset : ArcState (Fin 1) (Fin 1)) empty_vqip = none := by
  simp only [send_pull_request]
  rw [if_pos ⟨rfl, ⟨0⟩⟩]

/-- C6 (amended): pushing an empty record through a base arc whose state
satisfies the conservation invariant, whose committed flow does not exceed
the capacity, whose destination reports a non-negative checked volume and
replies to an empty committed push with an empty record, is a no-op that
returns an empty not-accepted record, and `send_push_request` never raises;
`send_pull_request`, however, divides the additive fields by the input
volume unguarded, so it fails with a division-by-zero error on every
zero-volume input record (when there is at least one additive pollutant)
instead of returning a record. -/
theorem empty_transfer_policy [Fintype AP] :
    (∀ (capacity : ℚ) (pc ps : VQIP AP NP → VQIP AP NP) (s : ArcState AP NP),
      s.flow_out = s.flow_in → s.vqip_out = s.vqip_in →
      s.flow_in ≤ capacity → 0 ≤ (pc empty_vqip).volume →
      ps empty_vqip = empty_vqip →
      send_push_request capacity pc ps s empty_vqip false = (s, empty_vqip)) ∧
    (∀ (capacity : ℚ) (pc ps : VQIP AP NP → VQIP AP NP) (s : ArcState AP NP)
      (v : VQIP AP NP), v.volume = 0 → Nonempty AP →
      send_pull_request capacity pc ps s v = none) := by
  constructor
  · intro capacity pc ps s h1 h2 h3 h4 h5
    have hev : (get_excess capacity s.flow_in (pc (empty_vqip : VQIP AP NP))).volume
        = min (capacity - s.flow_in) (pc empty_vqip).volume := get_excess_volume ..
    have hmax : max ((empty_vqip : VQIP AP NP).volume
        - (get_excess capacity s.flow_in (pc empty_vqip)).volume) 0 = 0 := by
      rw [hev]
      have h0 : (empty_vqip : VQIP AP NP).volume = 0 := rfl
      rw [h0]
      exact max_eq_right (by
        have := le_min (by linarith : (0:ℚ) ≤ capacity - s.flow_in) h4
        linarith)
    have hnp : v_change_vqip (empty_vqip : VQIP AP NP)
        (max ((empty_vqip : VQIP AP NP).volume
          - (get_excess capacity s.flow_in (pc empty_vqip)).volume) 0) = empty_vqip := by
      rw [hmax]
      ext <;> simp [v_change_vqip, empty_vqip]
    have hx : extract_vqip (empty_vqip : VQIP AP NP) empty_vqip = empty_vqip := by
      ext <;> simp [extract_vqip, empty_vqip]
    rw [send_push_request_false_eq, hnp, hx, h5, hx]
    simp only [sum_vqip_empty_right]
    have hempty0 : (empty_vqip : VQIP AP NP).volume = 0 := rfl
    rw [hempty0, add_zero]
    obtain ⟨fi, fo, vi, vo⟩ := s
    replace h1 : fo = fi := h1
    replace h2 : vo = vi := h2
    subst h1
    subst h2
    rfl
  · intro capacity pc ps s v h0 hne
    simp only [send_pull_request]
    rw [if_pos ⟨h0, hne⟩]

/-- C6 witness: the amended statement evaluated with capacity `1`, identity
endpoints and the reset state: the empty push is a no-op returning the empty
record, and the pull of a zero-volume record with a non-zero additive field
fails. -/
theorem empty_transfer_policy_witness :
    send_push_request 1 (fun r => r) (fun r => r)
        (arc_reset : ArcState (Fin 1) (Fin 1)) empty_vqip false
      = (arc_reset, empty_vqip) ∧
    send_pull_request 1 (fun r => r) (fun r => r)
        (arc_reset : ArcState (Fin 1) (Fin 1)) ⟨0, fun _ => 5, fun _ => 0⟩ = none :=
  ⟨(empty_transfer_policy).1 1 (fun r => r) (fun r => r) arc_reset rfl rfl
      (by norm_num [arc_reset]) (by norm_num [empty_vqip]) rfl,
   (empty_transfer_policy).2 1 (fun r => r) (fun r => r) arc_reset
      ⟨0, fun _ => 5, fun _ => 0⟩ rfl ⟨0⟩⟩

/-- A push pass of `update_queue` over a single not-yet-due, non-negligible
push request leaves the whole state unchanged and returns no backflow. -/
theorem update_queue_not_due {T : Type} (ps : VQIP AP NP → T → VQIP AP NP)
    (s : QueueState AP NP T) (r : QRequest AP NP T) (hq : s.queue = [r])
    (hdir : r.direction = Dir.push) (hvol : FLOAT_ACCURACY ≤ r.vqip.volume)
    (htime : r.time ≠ 0) :
    update_queue ps Dir.push true s = (s, empty_vqip) := by
  obtain ⟨q, fi, fo, vi, vo, qs, qs_⟩ := s
  replace hq : q = [r] := hq
  subst hq
  simp [update_queue, update_queue_step, hdir, htime, not_lt.mpr hvol,
    sum_vqip_empty_right]

/-- A push pass of `update_queue` over a single due, non-negligible push
request delivers it: the queue empties, the accepted portion is credited to
`flow_out` and `vqip_out`, and the destination-rejected portion is returned
as backflow. -/
theorem update_queue_due_push {T : Type} (ps : VQIP AP NP → T → VQIP AP NP)
    (s : QueueState AP NP T) (r : QRequest AP NP T) (hq : s.queue = [r])
    (hdir : r.direction = Dir.push) (hvol : FLOAT_ACCURACY ≤ r.vqip.volume)
    (htime : r.time = 0) :
    update_queue ps Dir.push true s =
      ({ s with queue := []
                flow_out := s.flow_out
                  + r.average_flow * (r.vqip.volume - (ps r.vqip r.tag).volume)
                    / r.vqip.volume
                vqip_out := sum_vqip s.vqip_out
                  (v_change_vqip r.vqip (r.vqip.volume - (ps r.vqip r.tag).volume)) },
       v_change_vqip r.vqip ((ps r.vqip r.tag).volume)) := by
  obtain ⟨q, fi, fo, vi, vo, qs, qs_⟩ := s
  replace hq : q = [r] := hq
  subst hq
  simp [update_queue, update_queue_step, hdir, htime, not_lt.mpr hvol,
    sum_vqip_empty_right, sum_vqip_empty_left]

/-- C3: a push record sitting in a Queue Arc's queue with remaining time
`d ≥ 1` and non-negligible volume is not delivered by any
`update_queue('push')` call before `d` calls to `end_timestep` have elapsed
(each such call is the identity on the state and returns empty backflow,
and each `end_timestep` decrements every entry's remaining time by one,
floored at zero); after the `d`-th `end_timestep` the first
`update_queue('push')` resolves it: the queue empties, the accepted portion
is credited to the outflow totals, and the destination-rejected portion is
returned. -/
theorem queue_delay_correctness {T : Type} (ps : VQIP AP NP → T → VQIP AP NP)
    (s0 : QueueState AP NP T) (r : QRequest AP NP T) (d : ℕ)
    (hq : s0.queue = [r]) (hdir : r.direction = Dir.push) (htime : r.time = d)
    (hd : 1 ≤ d) (hvol : FLOAT_ACCURACY ≤ r.vqip.volume) :
    (∀ s : QueueState AP NP T, (queue_end_timestep s).queue
        = s.queue.map (fun x => { x with time := x.time - 1 })) ∧
    (∀ j, (queue_end_timestep^[j] s0).queue = [{ r with time := d - j }]) ∧
    (∀ j, j < d → update_queue ps Dir.push true (queue_end_timestep^[j] s0)
        = (queue_end_timestep^[j] s0, empty_vqip)) ∧
    ((update_queue ps Dir.push true (queue_end_timestep^[d] s0)).1.queue = [] ∧
     (update_queue ps Dir.push true (queue_end_timestep^[d] s0)).1.flow_out
        = r.average_flow * (r.vqip.volume - (ps r.vqip r.tag).volume) / r.vqip.volume ∧
     (update_queue ps Dir.push true (queue_end_timestep^[d] s0)).1.vqip_out
        = v_change_vqip r.vqip (r.vqip.volume - (ps r.vqip r.tag).volume) ∧
     (update_queue ps Dir.push true (queue_end_timestep^[d] s0)).2
        = v_change_vqip r.vqip ((ps r.vqip r.tag).volume)) := by
  have hiter : ∀ j, (queue_end_timestep^[j] s0).queue = [{ r with time := d - j }] := by
    intro j
    induction j with
    | zero =>
      simp only [Function.iterate_zero, id_eq, hq, Nat.sub_zero]
      rw [← htime]
    | succ k ih =>
      rw [Function.iterate_succ_apply']
      have hmap : (queue_end_timestep (queue_end_timestep^[k] s0)).queue
          = (queue_end_timestep^[k] s0).queue.map (fun x => { x with time := x.time - 1 }) :=
        rfl
      rw [hmap, ih]
      simp only [List.map_cons, List.map_nil]
      have harith : d - k - 1 = d - (k + 1) := by omega
      show [{ r with time := d - k - 1 }] = _
      rw [harith]
  refine ⟨fun s => rfl, hiter, ?_, ?_⟩
  · intro j hj
    exact update_queue_not_due ps _ { r with time := d - j } (hiter j) hdir hvol
      (show d - j ≠ 0 by omega)
  · obtain ⟨k, rfl⟩ : ∃ k, d = k + 1 := ⟨d - 1, by omega⟩
    have hres := update_queue_due_push ps (queue_end_timestep^[k + 1] s0)
      { r with time := (k + 1) - (k + 1) } (hiter (k + 1)) hdir hvol
      (show (k + 1) - (k + 1) = 0 by omega)
    have hfo : (queue_end_timestep^[k + 1] s0).flow_out = 0 := by
      rw [Function.iterate_succ_apply']
      rfl
    have hvo : (queue_end_timestep^[k + 1] s0).vqip_out = empty_vqip := by
      rw [Function.iterate_succ_apply']
      rfl
    have h1 : (update_queue ps Dir.push true (queue_end_timestep^[k + 1] s0)).1.queue
        = [] := by rw [hres]
    have h2 : (update_queue ps Dir.push true (queue_end_timestep^[k + 1] s0)).1.flow_out
        = (queue_end_timestep^[k + 1] s0).flow_out
          + r.average_flow * (r.vqip.volume - (ps r.vqip r.tag).volume)
            / r.vqip.volume := by rw [hres]
    have h3 : (update_queue ps Dir.push true (queue_end_timestep^[k + 1] s0)).1.vqip_out
        = sum_vqip (queue_end_timestep^[k + 1] s0).vqip_out
            (v_change_vqip r.vqip (r.vqip.volume - (ps r.vqip r.tag).volume)) := by
      rw [hres]
    have h4 : (update_queue ps Dir.push true (queue_end_timestep^[k + 1] s0)).2
        = v_change_vqip r.vqip ((ps r.vqip r.tag).volume) := by rw [hres]
    refine ⟨h1, ?_, ?_, h4⟩
    · rw [h2, hfo, zero_add]
    · rw [h3, hvo, sum_vqip_empty_left]

/-- C3 witness: a push request of volume `5` with delay `2` in an otherwise
reset Queue Arc, against a destination that accepts everything: the
`update_queue('push')` after one `end_timestep` is the identity returning no
backflow, and the one after the second `end_timestep` empties the queue. -/
theorem queue_delay_correctness_witness :
    (update_queue (fun _ _ => empty_vqip) Dir.push true
        (queue_end_timestep^[1]
          (⟨[⟨2, ⟨5, fun _ => 0, fun _ => 0⟩, 1, Dir.push, ()⟩], 0, 0, empty_vqip,
            empty_vqip, empty_vqip, empty_vqip⟩ :
            QueueState (Fin 1) (Fin 1) Unit)))
      = (queue_end_timestep^[1]
          ⟨[⟨2, ⟨5, fun _ => 0, fun _ => 0⟩, 1, Dir.push, ()⟩], 0, 0, empty_vqip,
            empty_vqip, empty_vqip, empty_vqip⟩, empty_vqip) ∧
    (update_queue (fun _ _ => empty_vqip) Dir.push true
        (queue_end_timestep^[2]
          (⟨[⟨2, ⟨5, fun _ => 0, fun _ => 0⟩, 1, Dir.push, ()⟩], 0, 0, empty_vqip,
            empty_vqip, empty_vqip, empty_vqip⟩ :
            QueueState (Fin 1) (Fin 1) Unit))).1.queue = [] := by
  have h := queue_delay_correctness (fun _ _ => empty_vqip)
    (⟨[⟨2, ⟨5, fun _ => 0, fun _ => 0⟩, 1, Dir.push, ()⟩], 0, 0, empty_vqip,
      empty_vqip, empty_vqip, empty_vqip⟩ : QueueState (Fin 1) (Fin 1) Unit)
    ⟨2, ⟨5, fun _ => 0, fun _ => 0⟩, 1, Dir.push, ()⟩ 2 rfl rfl rfl (by norm_num)
    (by norm_num [FLOAT_ACCURACY])
  exact ⟨h.2.2.1 1 (by norm_num), h.2.2.2.1⟩

/-- The empty record has zero volume. -/
theorem empty_vqip_volume : (empty_vqip : VQIP AP NP).volume = 0 := rfl

/-- C4 (counterexample): with backflow disabled, `AltQueueArc.update_queue`
does not credit `flow_out` with the accepted portion: the `backflow`
variable is cleared before `total_removed` is volume-changed by it, so the
whole of bucket `0` is credited.  Bucket 0 holds volume `5`, the destination
rejects `2` (accepting `3`), yet `flow_out` is credited `5`, not `3`. -/
theorem alt_update_queue_disabled_credit_not_accepted :
    (alt_update_queue (fun v => v_change_vqip v (max (v.volume - 3) 0)) false
        (⟨⟨{0, 1}, fun j => if j = 0 then ⟨5, fun _ => 5, fun _ => 0⟩ else empty_vqip⟩,
          1, 0, 0, empty_vqip, empty_vqip, empty_vqip, empty_vqip⟩ :
          AltState (Fin 1) (Fin 1))).1.flow_out
      ≠ (0 : ℚ)
        + (((⟨⟨{0, 1}, fun j => if j = 0 then ⟨5, fun _ => 5, fun _ => 0⟩ else empty_vqip⟩,
          1, 0, 0, empty_vqip, empty_vqip, empty_vqip, empty_vqip⟩ :
          AltState (Fin 1) (Fin 1)).queue.val 0).volume
          - ((fun v => v_change_vqip v (max (v.volume - 3) 0))
              ((⟨⟨{0, 1}, fun j => if j = 0 then ⟨5, fun _ => 5, fun _ => 0⟩ else empty_vqip⟩,
          1, 0, 0, empty_vqip, empty_vqip, empty_vqip, empty_vqip⟩ :
          AltState (Fin 1) (Fin 1)).queue.val 0)).volume) := by
  norm_num [alt_update_queue, v_change_vqip, empty_vqip]

/-- C4 (amended): `AltQueueArc.update_queue` delivers only bucket `0` to the
destination's committed push.  With backflow enabled, bucket `0` is cleared
regardless of how much was accepted, the destination-rejected record is
returned, and `flow_out` / `vqip_out` are credited with exactly the accepted
portion.  With backflow disabled, the rejected record becomes the new bucket
`0`, an empty record is returned, and `flow_out` / `vqip_out` are credited
with the entire original bucket `0` (the rejected portion included, which
also remains queued), not just the accepted portion. -/
theorem alt_update_queue_policy (ps : VQIP AP NP → VQIP AP NP) (s : AltState AP NP)
    (h0 : 0 ∈ s.queue.keys) :
    ((alt_update_queue ps true s).2 = ps (s.queue.val 0) ∧
     (alt_update_queue ps true s).1.queue.val 0 = empty_vqip ∧
     (alt_update_queue ps true s).1.flow_out
        = s.flow_out + ((s.queue.val 0).volume - (ps (s.queue.val 0)).volume) ∧
     (alt_update_queue ps true s).1.vqip_out
        = sum_vqip s.vqip_out
            (v_change_vqip (s.queue.val 0)
              ((s.queue.val 0).volume - (ps (s.queue.val 0)).volume))) ∧
    ((alt_update_queue ps false s).2 = empty_vqip ∧
     (alt_update_queue ps false s).1.queue.val 0 = ps (s.queue.val 0) ∧
     (alt_update_queue ps false s).1.flow_out = s.flow_out + (s.queue.val 0).volume ∧
     (alt_update_queue ps false s).1.vqip_out = sum_vqip s.vqip_out (s.queue.val 0)) := by
  refine ⟨⟨rfl, by simp [alt_update_queue], ?_, rfl⟩,
          ⟨rfl, by simp [alt_update_queue], ?_, ?_⟩⟩
  · show s.flow_out + (v_change_vqip (s.queue.val 0)
        ((s.queue.val 0).volume - (ps (s.queue.val 0)).volume)).volume = _
    rw [v_change_vqip_volume]
  · show s.flow_out + (v_change_vqip (s.queue.val 0)
        ((s.queue.val 0).volume - (empty_vqip : VQIP AP NP).volume)).volume = _
    rw [empty_vqip_volume, sub_zero, v_change_vqip_volume]
  · show sum_vqip s.vqip_out (v_change_vqip (s.queue.val 0)
        ((s.queue.val 0).volume - (empty_vqip : VQIP AP NP).volume)) = _
    rw [empty_vqip_volume, sub_zero, v_change_vqip_self]

/-- C4 witness: the amended policy evaluated at a bucket 0 of volume `5`
against a destination accepting up to `3`: with backflow enabled the
rejected record (volume `2`) is returned, with backflow disabled `flow_out`
is credited with the full `5`. -/
theorem alt_update_queue_policy_witness :
    (alt_update_queue (fun v => v_change_vqip v (max (v.volume - 3) 0)) true
        (⟨⟨{0, 1}, fun j => if j = 0 then ⟨5, fun _ => 5, fun _ => 0⟩ else empty_vqip⟩,
          1, 0, 0, empty_vqip, empty_vqip, empty_vqip, empty_vqip⟩ :
          AltState (Fin 1) (Fin 1))).2
      = v_change_vqip
          ((⟨⟨{0, 1}, fun j => if j = 0 then ⟨5, fun _ => 5, fun _ => 0⟩ else empty_vqip⟩,
          1, 0, 0, empty_vqip, empty_vqip, empty_vqip, empty_vqip⟩ :
          AltState (Fin 1) (Fin 1)).queue.val 0)
          (max (((⟨⟨{0, 1}, fun j => if j = 0 then ⟨5, fun _ => 5, fun _ => 0⟩ else empty_vqip⟩,
          1, 0, 0, empty_vqip, empty_vqip, empty_vqip, empty_vqip⟩ :
          AltState (Fin 1) (Fin 1)).queue.val 0).volume - 3) 0) ∧
    (alt_update_queue (fun v => v_change_vqip v (max (v.volume - 3) 0)) false
        (⟨⟨{0, 1}, fun j => if j = 0 then ⟨5, fun _ => 5, fun _ => 0⟩ else empty_vqip⟩,
          1, 0, 0, empty_vqip, empty_vqip, empty_vqip, empty_vqip⟩ :
          AltState (Fin 1) (Fin 1))).1.flow_out
      = 0 + ((⟨⟨{0, 1}, fun j => if j = 0 then ⟨5, fun _ => 5, fun _ => 0⟩ else empty_vqip⟩,
          1, 0, 0, empty_vqip, empty_vqip, empty_vqip, empty_vqip⟩ :
          AltState (Fin 1) (Fin 1)).queue.val 0).volume := by
  have h := alt_update_queue_policy (fun v => v_change_vqip v (max (v.volume - 3) 0))
    (⟨⟨{0, 1}, fun j => if j = 0 then ⟨5, fun _ => 5, fun _ => 0⟩ else empty_vqip⟩,
      1, 0, 0, empty_vqip, empty_vqip, empty_vqip, empty_vqip⟩ :
      AltState (Fin 1) (Fin 1)) (by decide)
  exact ⟨h.1.1, h.2.2.2.1⟩

/-- Closed form of the `AltQueueArc.end_timestep` shift loop after `m`
iterations: the key set gains every index whose successor was an original
key, the value at `j` is the original bucket `j + 1` when that bucket
existed and the loop has reached it, the empty record when bucket `j`
existed (`j ≥ 1`) and was shifted away without replacement, and the
original value otherwise. -/
theorem alt_shift_fold (q_ : AltDict AP NP) (m : ℕ) :
    ((List.range m).foldl (alt_shift_step q_) q_).keys
      = q_.keys ∪ (Finset.range m).filter (fun i => i + 1 ∈ q_.keys) ∧
    ∀ j, ((List.range m).foldl (alt_shift_step q_) q_).val j
      = if j + 1 ∈ q_.keys ∧ j < m then q_.val (j + 1)
        else if j ∈ q_.keys ∧ 1 ≤ j ∧ j ≤ m then empty_vqip
        else q_.val j := by
  induction m with
  | zero =>
    constructor
    · simp
    · intro j
      simp only [List.range_zero, List.foldl_nil]
      rw [if_neg (by rintro ⟨-, h⟩; exact absurd h (Nat.not_lt_zero j)),
        if_neg (by rintro ⟨-, h1, h2⟩; omega)]
  | succ m ih =>
    obtain ⟨ihk, ihv⟩ := ih
    have hstep : (List.range (m + 1)).foldl (alt_shift_step q_) q_
        = alt_shift_step q_ ((List.range m).foldl (alt_shift_step q_) q_) m := by
      rw [List.range_succ, List.foldl_append, List.foldl_cons, List.foldl_nil]
    rw [hstep]
    set X := (List.range m).foldl (alt_shift_step q_) q_ with hXdef
    by_cases hmem : m + 1 ∈ q_.keys
    · have hmemX : m + 1 ∈ X.keys := by
        rw [ihk]
        exact Finset.mem_union_left _ hmem
      have hstep2 : alt_shift_step q_ X m =
          ⟨insert (m + 1) (insert m X.keys),
           fun j => if j = m + 1 then empty_vqip
             else if j = m then q_.val (m + 1) else X.val j⟩ := by
        unfold alt_shift_step
        rw [if_pos hmemX]
      rw [hstep2]
      constructor
      · show insert (m + 1) (insert m X.keys) = _
        rw [ihk]
        ext x
        simp only [Finset.mem_insert, Finset.mem_union, Finset.mem_filter, Finset.mem_range]
        constructor
        · rintro (rfl | rfl | hx | ⟨hx1, hx2⟩)
          · exact Or.inl hmem
          · exact Or.inr ⟨by omega, hmem⟩
          · exact Or.inl hx
          · exact Or.inr ⟨by omega, hx2⟩
        · rintro (hx | ⟨hx1, hx2⟩)
          · exact Or.inr (Or.inr (Or.inl hx))
          · by_cases hxm : x = m
            · exact Or.inr (Or.inl hxm)
            · exact Or.inr (Or.inr (Or.inr ⟨by omega, hx2⟩))
      · intro j
        show (if j = m + 1 then empty_vqip
            else if j = m then q_.val (m + 1) else X.val j) = _
        by_cases hj1 : j = m + 1
        · subst hj1
          rw [if_pos rfl, if_neg (by rintro ⟨-, h⟩; omega),
            if_pos ⟨hmem, by omega, by omega⟩]
        · rw [if_neg hj1]
          by_cases hj2 : j = m
          · subst hj2
            rw [if_pos rfl, if_pos ⟨hmem, by omega⟩]
          · rw [if_neg hj2, ihv j]
            by_cases c1 : j + 1 ∈ q_.keys ∧ j < m
            · rw [if_pos c1, if_pos ⟨c1.1, by omega⟩]
            · rw [if_neg c1]
              by_cases c1' : j + 1 ∈ q_.keys ∧ j < m + 1
              · exfalso
                have hnotlt : ¬ j < m := fun h => c1 ⟨c1'.1, h⟩
                exact hj2 (by omega)
              · rw [if_neg c1']
                by_cases c2 : j ∈ q_.keys ∧ 1 ≤ j ∧ j ≤ m
                · rw [if_pos c2, if_pos ⟨c2.1, c2.2.1, by omega⟩]
                · rw [if_neg c2]
                  by_cases c2' : j ∈ q_.keys ∧ 1 ≤ j ∧ j ≤ m + 1
                  · exfalso
                    have hnotle : ¬ j ≤ m := fun h => c2 ⟨c2'.1, c2'.2.1, h⟩
                    exact hj1 (by omega)
                  · rw [if_neg c2']
    · have hmemX : m + 1 ∉ X.keys := by
        rw [ihk]
        simp only [Finset.mem_union, Finset.mem_filter, Finset.mem_range]
        rintro (h | ⟨h1, h2⟩)
        · exact hmem h
        · omega
      have hstep2 : alt_shift_step q_ X m = X := by
        unfold alt_shift_step
        rw [if_neg hmemX]
      rw [hstep2]
      constructor
      · rw [ihk]
        ext x
        simp only [Finset.mem_union, Finset.mem_filter, Finset.mem_range]
        constructor
        · rintro (hx | ⟨h1, h2⟩)
          · exact Or.inl hx
          · exact Or.inr ⟨by omega, h2⟩
        · rintro (hx | ⟨h1, h2⟩)
          · exact Or.inl hx
          · refine Or.inr ⟨?_, h2⟩
            by_cases hxm : x = m
            · exact absurd (hxm ▸ h2) hmem
            · omega
      · intro j
        rw [ihv j]
        by_cases c1 : j + 1 ∈ q_.keys ∧ j < m
        · rw [if_pos c1, if_pos ⟨c1.1, by omega⟩]
        · rw [if_neg c1]
          by_cases c1' : j + 1 ∈ q_.keys ∧ j < m + 1
          · exfalso
            have hnotlt : ¬ j < m := fun h => c1 ⟨c1'.1, h⟩
            have hjm : j = m := by omega
            exact hmem (hjm ▸ c1'.1)
          · rw [if_neg c1']
            by_cases c2 : j ∈ q_.keys ∧ 1 ≤ j ∧ j ≤ m
            · rw [if_pos c2, if_pos ⟨c2.1, c2.2.1, by omega⟩]
            · rw [if_neg c2]
              by_cases c2' : j ∈ q_.keys ∧ 1 ≤ j ∧ j ≤ m + 1
              · exfalso
                have hnotle : ¬ j ≤ m := fun h => c2 ⟨c2'.1, c2'.2.1, h⟩
                have hjm : j = m + 1 := by omega
                exact hmem (hjm ▸ c2'.1)
              · rw [if_neg c2']

/-- Any additive field projection summed over all buckets is preserved by
`alt_end_timestep`: shifted buckets keep their values, emptied buckets
contribute zero, and the merged bucket `0` contributes the two old lowest
buckets. -/
theorem alt_end_sum_aux (s : AltState AP NP)
    (hWF : ∀ j ∈ s.queue.keys, j ≤ s.max_travel)
    (h0K : 0 ∈ s.queue.keys) (h1K : 1 ∈ s.queue.keys)
    (f : VQIP AP NP → ℚ)
    (hsum : ∀ a b, f (sum_vqip a b) = f a + f b)
    (hf0 : f empty_vqip = 0) :
    ∑ j ∈ (alt_end_timestep s).queue.keys, f ((alt_end_timestep s).queue.val j)
      = ∑ j ∈ s.queue.keys, f (s.queue.val j) := by
  obtain ⟨hkeys, hval⟩ := alt_shift_fold s.queue s.max_travel
  have hk2 : (alt_end_timestep s).queue.keys
      = insert 0 (s.queue.keys
          ∪ (Finset.range s.max_travel).filter (fun i => i + 1 ∈ s.queue.keys)) := by
    show insert 0 ((List.range s.max_travel).foldl (alt_shift_step s.queue) s.queue).keys = _
    rw [hkeys]
  have hv2 : ∀ j, (alt_end_timestep s).queue.val j
      = if j = 0 then sum_vqip (s.queue.val 0) (s.queue.val 1)
        else if j + 1 ∈ s.queue.keys ∧ j < s.max_travel then s.queue.val (j + 1)
        else if j ∈ s.queue.keys ∧ 1 ≤ j ∧ j ≤ s.max_travel then empty_vqip
        else s.queue.val j := by
    intro j
    show (if j = 0 then sum_vqip (s.queue.val 0) (s.queue.val 1)
        else ((List.range s.max_travel).foldl (alt_shift_step s.queue) s.queue).val j) = _
    by_cases hj : j = 0
    · rw [if_pos hj, if_pos hj]
    · rw [if_neg hj, if_neg hj, hval j]
  have hins : insert 0 (s.queue.keys
      ∪ (Finset.range s.max_travel).filter (fun i => i + 1 ∈ s.queue.keys))
      = s.queue.keys
        ∪ (Finset.range s.max_travel).filter (fun i => i + 1 ∈ s.queue.keys) :=
    Finset.insert_eq_self.mpr (Finset.mem_union_left _ h0K)
  have h0S : (0 : ℕ) ∈ s.queue.keys
      ∪ (Finset.range s.max_travel).filter (fun i => i + 1 ∈ s.queue.keys) :=
    Finset.mem_union_left _ h0K
  rw [hk2, hins, ← Finset.add_sum_erase _ _ h0S]
  have hsummand : ∀ j ∈ (s.queue.keys
      ∪ (Finset.range s.max_travel).filter (fun i => i + 1 ∈ s.queue.keys)).erase 0,
      f ((alt_end_timestep s).queue.val j)
        = if j + 1 ∈ s.queue.keys then f (s.queue.val (j + 1)) else 0 := by
    intro j hj
    obtain ⟨hj0, hjS⟩ := Finset.mem_erase.mp hj
    rw [hv2 j, if_neg hj0]
    by_cases hjk : j + 1 ∈ s.queue.keys
    · have hjM : j < s.max_travel := by
        have := hWF (j + 1) hjk
        omega
      rw [if_pos ⟨hjk, hjM⟩, if_pos hjk]
    · have hjK : j ∈ s.queue.keys := by
        rcases Finset.mem_union.mp hjS with h | h
        · exact h
        · exact absurd (Finset.mem_filter.mp h).2 hjk
      rw [if_neg (by rintro ⟨h, -⟩; exact hjk h),
        if_pos ⟨hjK, by omega, hWF j hjK⟩, if_neg hjk, hf0]
  rw [Finset.sum_congr rfl hsummand, ← Finset.sum_filter]
  have himg : (((s.queue.keys
      ∪ (Finset.range s.max_travel).filter (fun i => i + 1 ∈ s.queue.keys)).erase 0).filter
        (fun j => j + 1 ∈ s.queue.keys))
      = (s.queue.keys.filter (fun k => 2 ≤ k)).image (fun k => k - 1) := by
    ext x
    simp only [Finset.mem_filter, Finset.mem_erase, Finset.mem_union, Finset.mem_image,
      Finset.mem_range]
    constructor
    · rintro ⟨⟨hx0, hxS⟩, hxk⟩
      exact ⟨x + 1, ⟨hxk, by omega⟩, by omega⟩
    · rintro ⟨k, ⟨hk, h2⟩, rfl⟩
      have hk1 : k - 1 + 1 = k := by omega
      have hmem2 : k - 1 + 1 ∈ s.queue.keys := by rw [hk1]; exact hk
      refine ⟨⟨by omega, Or.inr ⟨?_, hmem2⟩⟩, hmem2⟩
      have := hWF k hk
      omega
  have hinj : ∀ x ∈ s.queue.keys.filter (fun k => 2 ≤ k),
      ∀ y ∈ s.queue.keys.filter (fun k => 2 ≤ k), x - 1 = y - 1 → x = y := by
    intro x hx y hy hxy
    have hx2 := (Finset.mem_filter.mp hx).2
    have hy2 := (Finset.mem_filter.mp hy).2
    omega
  rw [himg, Finset.sum_image hinj]
  have hshift : ∀ k ∈ s.queue.keys.filter (fun k => 2 ≤ k),
      f (s.queue.val (k - 1 + 1)) = f (s.queue.val k) := by
    intro k hk
    have h2 := (Finset.mem_filter.mp hk).2
    have hk1 : k - 1 + 1 = k := by omega
    rw [hk1]
  rw [Finset.sum_congr rfl hshift, hv2 0, if_pos rfl, hsum]
  have h1e : (1 : ℕ) ∈ s.queue.keys.erase 0 := Finset.mem_erase.mpr ⟨by omega, h1K⟩
  rw [← Finset.add_sum_erase _ _ h0K, ← Finset.add_sum_erase _ _ h1e]
  have hee : (s.queue.keys.erase 0).erase 1 = s.queue.keys.filter (fun k => 2 ≤ k) := by
    ext x
    simp only [Finset.mem_erase, Finset.mem_filter]
    constructor
    · rintro ⟨hx1, hx0, hx⟩
      exact ⟨hx, by omega⟩
    · rintro ⟨hx, h2⟩
      exact ⟨by omega, by omega, hx⟩
  rw [hee]
  ring

/-- C5: in a Bucket Queue Arc whose key set is bounded by `max_travel` and
contains the always-present buckets `0` and `1`, a bucket present at delay
`d ≥ 1` is moved by one `end_timestep` to delay `d - 1` — exactly its record
for `d ≥ 2`, merged with the old bucket `0` into the new bucket `0` for
`d = 1` — the destination bucket exists afterwards, and the bucket-wise sum
of volume and of every pollutant field over all buckets is unchanged by the
shift. -/
theorem alt_bucket_aging (s : AltState AP NP)
    (hWF : ∀ j ∈ s.queue.keys, j ≤ s.max_travel)
    (h0K : 0 ∈ s.queue.keys) (h1K : 1 ∈ s.queue.keys)
    (d : ℕ) (hd : 1 ≤ d) (hdK : d ∈ s.queue.keys) :
    (2 ≤ d → (alt_end_timestep s).queue.val (d - 1) = s.queue.val d) ∧
    (d = 1 → (alt_end_timestep s).queue.val 0
        = sum_vqip (s.queue.val 0) (s.queue.val 1)) ∧
    (d - 1) ∈ (alt_end_timestep s).queue.keys ∧
    alt_queue_arc_sum (alt_end_timestep s).queue = alt_queue_arc_sum s.queue := by
  obtain ⟨hkeys, hval⟩ := alt_shift_fold s.queue s.max_travel
  refine ⟨?_, ?_, ?_, ?_⟩
  · intro h2
    show (if d - 1 = 0 then sum_vqip (s.queue.val 0) (s.queue.val 1)
        else ((List.range s.max_travel).foldl (alt_shift_step s.queue) s.queue).val (d - 1))
      = _
    rw [if_neg (by omega), hval]
    have hd1 : d - 1 + 1 = d := by omega
    rw [hd1]
    rw [if_pos ⟨hdK, by have := hWF d hdK; omega⟩]
  · intro h1
    show (if (0 : ℕ) = 0 then sum_vqip (s.queue.val 0) (s.queue.val 1)
        else ((List.range s.max_travel).foldl (alt_shift_step s.queue) s.queue).val 0)
      = _
    rw [if_pos rfl]
  · show d - 1 ∈ insert 0
      ((List.range s.max_travel).foldl (alt_shift_step s.queue) s.queue).keys
    rw [hkeys]
    by_cases h2 : 2 ≤ d
    · refine Finset.mem_insert.mpr (Or.inr (Finset.mem_union_right _ ?_))
      have hd1 : d - 1 + 1 = d := by omega
      refine Finset.mem_filter.mpr ⟨Finset.mem_range.mpr ?_, by rw [hd1]; exact hdK⟩
      have := hWF d hdK
      omega
    · have hd1 : d = 1 := by omega
      rw [hd1]
      exact Finset.mem_insert.mpr (Or.inl rfl)
  · have hvol := alt_end_sum_aux s hWF h0K h1K (fun t => t.volume)
      (fun a b => rfl) rfl
    have hadd := fun p => alt_end_sum_aux s hWF h0K h1K (fun t => t.additive p)
      (fun a b => rfl) rfl
    have hnon := fun p => alt_end_sum_aux s hWF h0K h1K (fun t => t.nonadd p)
      (fun a b => rfl) rfl
    ext
    · exact hvol
    · exact hadd _
    · exact hnon _

/-- C5 witness: keys `{0, 1, 3}` with volumes `1`, `2` and `7` and
`max_travel = 3`: after one `end_timestep` the delay-`3` bucket sits at
delay `2` and the bucket-wise totals are unchanged. -/
theorem alt_bucket_aging_witness :
    (alt_end_timestep
        (⟨⟨{0, 1, 3}, fun j => if j = 0 then ⟨1, fun _ => 0, fun _ => 0⟩
            else if j = 1 then ⟨2, fun _ => 0, fun _ => 0⟩
            else if j = 3 then ⟨7, fun _ => 0, fun _ => 0⟩ else empty_vqip⟩,
          3, 0, 0, empty_vqip, empty_vqip, empty_vqip, empty_vqip⟩ :
          AltState (Fin 1) (Fin 1))).queue.val 2
      = (⟨⟨{0, 1, 3}, fun j => if j = 0 then ⟨1, fun _ => 0, fun _ => 0⟩
            else if j = 1 then ⟨2, fun _ => 0, fun _ => 0⟩
            else if j = 3 then ⟨7, fun _ => 0, fun _ => 0⟩ else empty_vqip⟩,
          3, 0, 0, empty_vqip, empty_vqip, empty_vqip, empty_vqip⟩ :
          AltState (Fin 1) (Fin 1)).queue.val 3 ∧
    alt_queue_arc_sum (alt_end_timestep
        (⟨⟨{0, 1, 3}, fun j => if j = 0 then ⟨1, fun _ => 0, fun _ => 0⟩
            else if j = 1 then ⟨2, fun _ => 0, fun _ => 0⟩
            else if j = 3 then ⟨7, fun _ => 0, fun _ => 0⟩ else empty_vqip⟩,
          3, 0, 0, empty_vqip, empty_vqip, empty_vqip, empty_vqip⟩ :
          AltState (Fin 1) (Fin 1))).queue
      = alt_queue_arc_sum
          (⟨⟨{0, 1, 3}, fun j => if j = 0 then ⟨1, fun _ => 0, fun _ => 0⟩
            else if j = 1 then ⟨2, fun _ => 0, fun _ => 0⟩
            else if j = 3 then ⟨7, fun _ => 0, fun _ => 0⟩ else empty_vqip⟩,
          3, 0, 0, empty_vqip, empty_vqip, empty_vqip, empty_vqip⟩ :
          AltState (Fin 1) (Fin 1)).queue := by
  have h := alt_bucket_aging
    (⟨⟨{0, 1, 3}, fun j => if j = 0 then ⟨1, fun _ => 0, fun _ => 0⟩
        else if j = 1 then ⟨2, fun _ => 0, fun _ => 0⟩
        else if j = 3 then ⟨7, fun _ => 0, fun _ => 0⟩ else empty_vqip⟩,
      3, 0, 0, empty_vqip, empty_vqip, empty_vqip, empty_vqip⟩ :
      AltState (Fin 1) (Fin 1))
    (by decide) (by decide) (by decide) 3 (by norm_num) (by decide)
  exact ⟨h.1 (by norm_num), h.2.2.2⟩

end WSIMod
